import Mathlib

set_option autoImplicit false
set_option maxRecDepth 8192

/-!
Verification of the Gemini code-reviewer service and its UI orchestration layer.

The definitions below are a shallow embedding of the repository's TypeScript
sources, mainly `services/geminiService.ts` (the current version, with
`GeminiApiError`, `detectLanguage`, `reviewCode`, `explainFurther`) and the
`App` component's `handleReview` / `handleApplyChanges` callbacks, together
with the `ReviewOutput` component's "apply changes" affordance condition.

JavaScript `JSON.parse` is embedded as an executable recursive-descent parser
over the ECMA-404 grammar; numbers are kept as their lexemes (no claim in this
development compares two numerals for numeric equality).
-/

namespace CodeReviewer

/-! ## JavaScript primitives -/

/-- JS truthiness of a `string | null` (or `string | undefined`) value:
`null`/`undefined` and the empty string are falsy. -/
def jsTruthyStr : Option String → Bool
  | none => false
  | some s => !(s == "")

/-- JS `String.prototype.trim`: strips leading and trailing WhiteSpace /
LineTerminator characters (the claims only exercise the ASCII ones). -/
def jsIsWhitespace (c : Char) : Bool :=
  [32, 9, 10, 13, 11, 12, 0xA0, 0xFEFF, 0x2028, 0x2029].contains c.toNat

def jsTrim (s : String) : String :=
  String.mk (((s.toList.dropWhile jsIsWhitespace).reverse.dropWhile jsIsWhitespace).reverse)

/-- `a.startsWith(b)` on character lists. -/
def listStartsWith : List Char → List Char → Bool
  | _, [] => true
  | [], _ :: _ => false
  | a :: as, b :: bs => a == b && listStartsWith as bs

/-- `hay.includes(needle)` on character lists. -/
def listIncludesSeg (hay needle : List Char) : Bool :=
  match hay with
  | [] => listStartsWith [] needle
  | _ :: rest => listStartsWith hay needle || listIncludesSeg rest needle

/-- JS `String.prototype.includes`. -/
def strIncludes (hay needle : String) : Bool :=
  listIncludesSeg hay.toList needle.toList

/-! ## JSON values and `JSON.parse` -/

/-- A parsed JSON value (the result of a successful `JSON.parse`).
Numbers are kept as their source lexeme. -/
inductive Json where
  | null
  | bool (b : Bool)
  | num (lexeme : String)
  | str (s : String)
  | arr (elems : List Json)
  | obj (fields : List (String × Json))
deriving Repr

/-- The `\x7b` character. -/
def lbrace : Char := Char.ofNat 123

/-- The `\x7d` character. -/
def rbrace : Char := Char.ofNat 125

/-- JSON insignificant whitespace (ECMA-404): tab, LF, CR, space. -/
def isJsonWs (c : Char) : Bool :=
  c.toNat == 32 || c.toNat == 9 || c.toNat == 10 || c.toNat == 13

def skipWs : List Char → List Char
  | [] => []
  | c :: cs => if isJsonWs c then skipWs cs else c :: cs

def hexVal (c : Char) : Option Nat :=
  let n := c.toNat
  if 48 ≤ n && n ≤ 57 then some (n - 48)
  else if 97 ≤ n && n ≤ 102 then some (n - 87)
  else if 65 ≤ n && n ≤ 70 then some (n - 55)
  else none

def parseHex4 : List Char → Option (Nat × List Char)
  | c1 :: c2 :: c3 :: c4 :: rest =>
    match hexVal c1, hexVal c2, hexVal c3, hexVal c4 with
    | some a, some b, some c, some d => some (a * 4096 + b * 256 + c * 16 + d, rest)
    | _, _, _, _ => none
  | _ => none

/-- Body of a JSON string literal, after the opening quote.  A `\uXXXX` high
surrogate followed by a low surrogate is combined into one code point; a lone
surrogate — representable in a JS (UTF-16) string but not in a Lean string —
is mapped to U+FFFD.  Raw control characters are a syntax error. -/
def parseStringBody : Nat → List Char → List Char → Option (String × List Char)
  | 0, _, _ => none
  | fuel + 1, cs, acc =>
    match cs with
    | [] => none
    | c :: rest =>
      if c == '"' then some (String.mk acc.reverse, rest)
      else if c == '\\' then
        match rest with
        | [] => none
        | e :: rest2 =>
          if e == '"' then parseStringBody fuel rest2 ('"' :: acc)
          else if e == '\\' then parseStringBody fuel rest2 ('\\' :: acc)
          else if e == '/' then parseStringBody fuel rest2 ('/' :: acc)
          else if e == 'b' then parseStringBody fuel rest2 (Char.ofNat 8 :: acc)
          else if e == 'f' then parseStringBody fuel rest2 (Char.ofNat 12 :: acc)
          else if e == 'n' then parseStringBody fuel rest2 ('\n' :: acc)
          else if e == 'r' then parseStringBody fuel rest2 ('\r' :: acc)
          else if e == 't' then parseStringBody fuel rest2 ('\t' :: acc)
          else if e == 'u' then
            match parseHex4 rest2 with
            | none => none
            | some (n, rest3) =>
              if 0xD800 ≤ n && n ≤ 0xDBFF then
                match rest3 with
                | '\\' :: 'u' :: rest4 =>
                  match parseHex4 rest4 with
                  | some (m, rest5) =>
                    if 0xDC00 ≤ m && m ≤ 0xDFFF then
                      parseStringBody fuel rest5
                        (Char.ofNat (0x10000 + (n - 0xD800) * 0x400 + (m - 0xDC00)) :: acc)
                    else
                      parseStringBody fuel rest3 (Char.ofNat 0xFFFD :: acc)
                  | none => parseStringBody fuel rest3 (Char.ofNat 0xFFFD :: acc)
                | _ => parseStringBody fuel rest3 (Char.ofNat 0xFFFD :: acc)
              else if 0xDC00 ≤ n && n ≤ 0xDFFF then
                parseStringBody fuel rest3 (Char.ofNat 0xFFFD :: acc)
              else
                parseStringBody fuel rest3 (Char.ofNat n :: acc)
          else none
      else if c.toNat < 0x20 then none
      else parseStringBody fuel rest (c :: acc)

def isDigitChar (c : Char) : Bool :=
  48 ≤ c.toNat && c.toNat ≤ 57

/-- A JSON number: `-?(0|[1-9][0-9]*)(\.[0-9]+)?([eE][+-]?[0-9]+)?`;
returns the lexeme. -/
def parseNumber (cs : List Char) : Option (String × List Char) :=
  let (sign, cs1) :=
    match cs with
    | '-' :: r => (['-'], r)
    | _ => (([] : List Char), cs)
  let intRes : Option (List Char × List Char) :=
    match cs1 with
    | '0' :: r => some (['0'], r)
    | c :: _ =>
      if '1' ≤ c && c ≤ '9' then
        some (cs1.takeWhile isDigitChar, cs1.dropWhile isDigitChar)
      else none
    | [] => none
  match intRes with
  | none => none
  | some (intPart, cs2) =>
    let fracRes : Option (List Char × List Char) :=
      match cs2 with
      | '.' :: r =>
        let ds := r.takeWhile isDigitChar
        if ds.isEmpty then none else some ('.' :: ds, r.dropWhile isDigitChar)
      | _ => some ([], cs2)
    match fracRes with
    | none => none
    | some (fracPart, cs3) =>
      let expRes : Option (List Char × List Char) :=
        match cs3 with
        | e :: r =>
          if e == 'e' || e == 'E' then
            let (sgn, r2) :=
              match r with
              | '+' :: r2 => (['+'], r2)
              | '-' :: r2 => (['-'], r2)
              | _ => (([] : List Char), r)
            let ds := r2.takeWhile isDigitChar
            if ds.isEmpty then none
            else some (e :: (sgn ++ ds), r2.dropWhile isDigitChar)
          else some ([], cs3)
        | [] => some ([], cs3)
      match expRes with
      | none => none
      | some (expPart, cs4) =>
        some (String.mk (sign ++ intPart ++ fracPart ++ expPart), cs4)

/-- Remaining elements of an array, positioned right after a parsed element.
`pv` parses one value (the main parser at one less fuel). -/
def parseElemsLoop (pv : List Char → Option (Json × List Char)) :
    Nat → List Char → List Json → Option (List Json × List Char)
  | 0, _, _ => none
  | fuel + 1, cs, acc =>
    match skipWs cs with
    | ']' :: rest => some (acc.reverse, rest)
    | ',' :: rest =>
      match pv (skipWs rest) with
      | some (j, cs2) => parseElemsLoop pv fuel cs2 (j :: acc)
      | none => none
    | _ => none

/-- One `"key" : value` member of an object; `cs` is positioned at the
opening quote of the key. -/
def parseMember (pv : List Char → Option (Json × List Char)) (cs : List Char) :
    Option ((String × Json) × List Char) :=
  match cs with
  | c :: rest =>
    if c == '"' then
      match parseStringBody (rest.length + 1) rest [] with
      | some (k, cs1) =>
        match skipWs cs1 with
        | ':' :: cs2 =>
          match pv (skipWs cs2) with
          | some (j, cs3) => some ((k, j), cs3)
          | none => none
        | _ => none
      | none => none
    else none
  | [] => none

/-- Remaining members of an object, positioned right after a parsed member. -/
def parseMembersLoop (pv : List Char → Option (Json × List Char)) :
    Nat → List Char → List (String × Json) → Option (List (String × Json) × List Char)
  | 0, _, _ => none
  | fuel + 1, cs, acc =>
    match skipWs cs with
    | c :: rest =>
      if c == rbrace then some (acc.reverse, rest)
      else if c == ',' then
        match parseMember pv (skipWs rest) with
        | some (kv, cs2) => parseMembersLoop pv fuel cs2 (kv :: acc)
        | none => none
      else none
    | [] => none

/-- One JSON value.  Fuel bounds the nesting depth; each nesting level
consumes at least one character, so `input length + 2` always suffices. -/
def parseVal : Nat → List Char → Option (Json × List Char)
  | 0, _ => none
  | fuel + 1, cs =>
    match cs with
    | [] => none
    | 't' :: 'r' :: 'u' :: 'e' :: rest => some (Json.bool true, rest)
    | 'f' :: 'a' :: 'l' :: 's' :: 'e' :: rest => some (Json.bool false, rest)
    | 'n' :: 'u' :: 'l' :: 'l' :: rest => some (Json.null, rest)
    | c :: rest =>
      if c == '"' then
        match parseStringBody (rest.length + 1) rest [] with
        | some (s, r) => some (Json.str s, r)
        | none => none
      else if c == '[' then
        match skipWs rest with
        | ']' :: r => some (Json.arr [], r)
        | cs1 =>
          match parseVal fuel cs1 with
          | some (j, cs2) =>
            match parseElemsLoop (parseVal fuel) (cs2.length + 1) cs2 [j] with
            | some (js, r) => some (Json.arr js, r)
            | none => none
          | none => none
      else if c == lbrace then
        match skipWs rest with
        | cs1 =>
          match cs1 with
          | d :: r =>
            if d == rbrace then some (Json.obj [], r)
            else
              match parseMember (parseVal fuel) cs1 with
              | some (kv, cs2) =>
                match parseMembersLoop (parseVal fuel) (cs2.length + 1) cs2 [kv] with
                | some (kvs, r2) => some (Json.obj kvs, r2)
                | none => none
              | none => none
          | [] => none
      else
        match parseNumber cs with
        | some (lx, r) => some (Json.num lx, r)
        | none => none

/-- `JSON.parse`: `none` models a thrown `SyntaxError`. -/
def Json.parse (s : String) : Option Json :=
  let cs := skipWs s.toList
  match parseVal (s.length + 2) cs with
  | some (j, rest) => if (skipWs rest).isEmpty then some j else none
  | none => none

/-- Property read `fields[key]` with JS object semantics: with duplicate keys
in the JSON text, the last occurrence wins. -/
def lookupLast : List (String × Json) → String → Option Json
  | [], _ => none
  | (k, v) :: rest, key =>
    match lookupLast rest key with
    | some r => some r
    | none => if k == key then some v else none

/-- JS member read `j.key` on a non-`null` parsed value: `none` models
`undefined` (missing field, or any non-object receiver other than `null`,
whose boxed primitives have no such own property).  Member access on `null`
itself throws a `TypeError` and is handled separately at the use site. -/
def Json.getField (j : Json) (k : String) : Option Json :=
  match j with
  | .obj fields => lookupLast fields k
  | _ => none

example : Json.parse "true" = some (Json.bool true) := rfl
example : Json.parse "  null " = some Json.null := rfl
example : Json.parse "nul" = none := rfl
example : Json.parse "[1, 2.5e3, \"a\"]"
    = some (Json.arr [Json.num "1", Json.num "2.5e3", Json.str "a"]) := rfl
example : Json.parse "\x7b\"a\": true, \"a\": false\x7d"
    = some (Json.obj [("a", Json.bool true), ("a", Json.bool false)]) := rfl
example : (Json.obj [("a", Json.bool true), ("a", Json.bool false)]).getField "a"
    = some (Json.bool false) := rfl
example : Json.parse "\x7b\"language\": \"python\", \"confidence\": \"high\"\x7d"
    = some (Json.obj [("language", Json.str "python"), ("confidence", Json.str "high")]) := rfl
example : Json.parse "\x7b" = none := rfl
example : Json.parse "01" = none := rfl
example : Json.parse "\"a\\u0041b\"" = some (Json.str "aAb") := rfl

/-! ## Error taxonomy (`geminiService.ts`) -/

inductive ApiErrorType where
  | API_KEY
  | NETWORK
  | RESPONSE_PARSING
  | BAD_REQUEST
  | UNKNOWN
deriving Repr, DecidableEq

structure GeminiApiError where
  message : String
  type : ApiErrorType
deriving Repr, DecidableEq

/-- `handleApiError` applied to a thrown `Error` that is not already a
`GeminiApiError` (its other branches do not arise in this model): classify
by pattern-matching the error message text. -/
def handleApiError (msg : String) : GeminiApiError :=
  if strIncludes msg "API key not valid" then
    ⟨"Your API key is not valid. Please check your configuration.", .API_KEY⟩
  else if strIncludes msg.toLower "network" || strIncludes msg.toLower "failed to fetch" then
    ⟨"A network error occurred. Please check your internet connection and try again.",
      .NETWORK⟩
  else if strIncludes msg "400" then
    ⟨"The API request failed (400 Bad Request). This can sometimes be caused by syntax errors or incomplete code in your input. Please review your code and try again.",
      .BAD_REQUEST⟩
  else ⟨msg, .UNKNOWN⟩

/-! ## Supported languages -/

structure LanguageOption where
  value : String
  label : String
deriving Repr, DecidableEq

/-- Modelled from the spec: `constants.ts`, which defines
`SUPPORTED_LANGUAGES`, is not among the provided sources (only its importers
are).  The fixed set is taken from the extension→language mapping of spec section 6
(js/jsx→javascript, ts/tsx→typescript, py→python, java→java, cs→csharp,
go→go, rs→rust, html, css, sql, json) plus the "auto" entry used by the
selector; labels are display-only and never inspected by the claims. -/
def SUPPORTED_LANGUAGES : List LanguageOption :=
  [⟨"auto", "Auto-Detect"⟩,
   ⟨"javascript", "JavaScript"⟩,
   ⟨"typescript", "TypeScript"⟩,
   ⟨"python", "Python"⟩,
   ⟨"java", "Java"⟩,
   ⟨"csharp", "C#"⟩,
   ⟨"go", "Go"⟩,
   ⟨"rust", "Rust"⟩,
   ⟨"html", "HTML"⟩,
   ⟨"css", "CSS"⟩,
   ⟨"sql", "SQL"⟩,
   ⟨"json", "JSON"⟩]

/-- `Array.prototype.join(", ")`. -/
def joinComma : List String → String
  | [] => ""
  | [s] => s
  | s :: rest => s ++ ", " ++ joinComma rest

/-- `detectLanguage`, lines 151-154: the quoted, comma-separated list of
non-"auto" tags interpolated into the detection prompt. -/
def validLanguages : String :=
  joinComma ((SUPPORTED_LANGUAGES.filter (fun l => !(l.value == "auto"))).map
    (fun l => "\x27" ++ l.value ++ "\x27"))

/-! ## Prompt construction -/

/-- JS `s.substring(0, n)`: the first `n` characters of `s`. -/
def jsSubstringTo (s : String) (n : Nat) : String :=
  String.mk (s.toList.take n)

def detectPromptSeg0 : String :=
  "\n    Identify the programming language of the following code snippet.\n    Your response MUST be a JSON object with two keys: \"language\" and \"confidence\".\n\n    - The \"language\" value must be one of the following exact strings: "

def detectPromptSeg1 : String :=
  ".\n    - The \"confidence\" value must be one of these three strings: \"high\", \"medium\", or \"low\".\n    - Use \"low\" confidence if you are very unsure, if the code is too short, or if it could be multiple languages.\n    - If you cannot determine the language at all from the list, default to \x27javascript\x27 and \x27low\x27 confidence.\n\n    Code snippet (first 2000 characters):\n    ---\n    "

def detectPromptSeg2 : String :=
  "\n    ---\n  "

/-- The language-detection instruction (`detectLanguage`, lines 156-169):
only the first 2000 characters of the code are embedded. -/
def detectPrompt (code : String) : String :=
  detectPromptSeg0 ++ validLanguages ++ detectPromptSeg1
    ++ jsSubstringTo code 2000 ++ detectPromptSeg2

def reviewPromptSeg0 : String :=
  "\n    Как эксперт по ревью кода, пожалуйста, проанализируй следующий фрагмент кода на языке "

def reviewPromptSeg1 : String :=
  ".\n    Твой ответ ДОЛЖЕН быть в формате JSON, соответствующем предоставленной схеме.\n\n    Для объекта \"review\":\n    - \"summary\": Предоставь краткое, в одно-два предложения, общее резюме качества кода.\n    - \"points\": Предоставь список конкретных пунктов обратной связи. Для каждого пункта:\n      - \"topic\": Краткий заголовок для категории обратной связи (например, \"Корректность\", \"Читаемость\", \"Производительность\", \"Безопасность\", \"Лучшие практики\").\n      - \"feedback\": Подробный, действенный отзыв по этому пункту в формате Markdown.\n\n    Для поля \"suggestedCode\":\n    - Если можно внести улучшения, верни полный, улучшенный фрагмент кода.\n    - Если никаких изменений не требуется, верни null.\n    - Убедись, что возвращаемый код является полным и может напрямую заменить оригинальный.\n\n    Вот код:\n    ```"

def reviewPromptSeg2 : String :=
  "\n    "

def reviewPromptSeg3 : String :=
  "\n    ```\n  "

/-- The review instruction (`reviewCode`, lines 216-235): the target language
tag is interpolated twice and the whole code verbatim once. -/
def reviewPrompt (code language : String) : String :=
  reviewPromptSeg0 ++ language ++ reviewPromptSeg1 ++ language
    ++ reviewPromptSeg2 ++ code ++ reviewPromptSeg3

def explainPromptSeg0 : String :=
  "\n      An expert code review was performed on a snippet of "

def explainPromptSeg1 : String :=
  " code.\n      A user has requested a more detailed explanation for a specific feedback point.\n\n      Please elaborate on the feedback provided. Your explanation should be easy to understand for a developer.\n      - Explain *why* this is an issue or a point of improvement.\n      - Discuss the underlying concepts or principles.\n      - If applicable, provide a small, focused \"before\" and \"after\" code example to illustrate the improvement.\n      - Keep the tone helpful and educational.\n      - Respond in Russian.\n\n      **Original Code Snippet:**\n      ```"

def explainPromptSeg2 : String :=
  "\n      "

def explainPromptSeg3 : String :=
  "\n      ```\n\n      **Feedback Point to Explain:**\n      - **Topic:** "

def explainPromptSeg4 : String :=
  "\n      - **Feedback:** "

def explainPromptSeg5 : String :=
  "\n\n      Provide your detailed explanation in Markdown format.\n    "

structure ReviewPoint where
  topic : String
  feedback : String
deriving Repr, DecidableEq

/-- The follow-up explanation instruction (`explainFurther`, lines 299-320):
the whole code is embedded verbatim, along with the feedback point. -/
def explainPrompt (code language : String) (point : ReviewPoint) : String :=
  explainPromptSeg0 ++ language ++ explainPromptSeg1 ++ language
    ++ explainPromptSeg2 ++ code ++ explainPromptSeg3 ++ point.topic
    ++ explainPromptSeg4 ++ point.feedback ++ explainPromptSeg5

/-! ## Response interpretation (`detectLanguage` / `reviewCode`) -/

/-- Whether a parsed JSON value is the top-level `null` (whose member reads
throw in JS). -/
def Json.isNull : Json → Bool
  | .null => true
  | _ => false

/-- JS strict equality `v === s` between a field read from a parsed JSON
value (`none` = `undefined`) and a string: true only for an identical
string. -/
def strictEqJsonStr (v : Option Json) (s : String) : Bool :=
  match v with
  | some (.str t) => t == s
  | _ => false

/-- The `RESPONSE_PARSING` error thrown by `detectLanguage` when
`JSON.parse` raises a `SyntaxError` (lines 205-207). -/
def detectParseError : GeminiApiError :=
  ⟨"Failed to parse the API response for language detection. The format might be incorrect.",
    .RESPONSE_PARSING⟩

/-- The `RESPONSE_PARSING` error thrown by `reviewCode` when `JSON.parse`
raises a `SyntaxError` (lines 289-291). -/
def reviewParseError : GeminiApiError :=
  ⟨"Failed to parse the API response for code review. The format might be incorrect.",
    .RESPONSE_PARSING⟩

/-- The engine message of the `TypeError` raised by `result.language` when
the parsed response is `null` (V8 wording; only its classification as
`UNKNOWN` matters below). -/
def nullMemberTypeErrorMsg : String :=
  "Cannot read properties of null (reading \x27language\x27)"

/-- The validity check of `detectLanguage` (lines 197-198): the parsed
value\x27s `language` is strictly equal to some non-"auto" supported tag, and
its `confidence` is one of the three levels. -/
def detectResultValid (j : Json) : Bool :=
  (SUPPORTED_LANGUAGES.any fun l =>
      strictEqJsonStr (j.getField "language") l.value && !(l.value == "auto"))
    && (strictEqJsonStr (j.getField "confidence") "high"
        || strictEqJsonStr (j.getField "confidence") "medium"
        || strictEqJsonStr (j.getField "confidence") "low")

/-- The fallback result of `detectLanguage` (line 202). -/
def detectFallbackJson : Json :=
  Json.obj [("language", Json.str "javascript"), ("confidence", Json.str "low")]

/-- `detectLanguage` from the receipt of the raw response text (lines
195-209): parse, validate the enumerated fields, and either return the
parsed object unchanged or substitute the fallback.  A parse failure is a
`SyntaxError`, rethrown as `RESPONSE_PARSING`; a parsed top-level `null`
makes the member read `result.language` throw a `TypeError`, which falls
through to `handleApiError`. -/
def detectLanguageInterp (raw : String) : Except GeminiApiError Json :=
  match Json.parse raw with
  | none => .error detectParseError
  | some j =>
    if j.isNull then .error (handleApiError nullMemberTypeErrorMsg)
    else if detectResultValid j then .ok j
    else .ok detectFallbackJson

/-- `reviewCode` from the receipt of the raw response text (lines 285-293):
parse and return the parsed object unchanged; a parse failure is rethrown as
`RESPONSE_PARSING`. -/
def reviewCodeInterp (raw : String) : Except GeminiApiError Json :=
  match Json.parse raw with
  | none => .error reviewParseError
  | some j => .ok j

/-! ## Module initialization (`geminiService.ts`, lines 82-88) -/

/-- The constructed `GoogleGenAI` client (only its existence matters). -/
structure ServiceModule where
  apiKey : String
deriving Repr, DecidableEq

/-- Module-level initialization: read `process.env.API_KEY` (`none` =
unset), throw before any client is constructed if it is falsy, otherwise
construct the client. -/
def initGeminiService (env : Option String) : Except String ServiceModule :=
  match env with
  | none => .error "API_KEY environment variable not set"
  | some k =>
    if k = "" then .error "API_KEY environment variable not set"
    else .ok ⟨k⟩

/-- A `detectLanguage` call made through an initialized module: the call
body never consults the key. -/
def detectLanguageCall (_m : ServiceModule) (raw : String) : Except GeminiApiError Json :=
  detectLanguageInterp raw

/-- A `reviewCode` call made through an initialized module: the call body
never consults the key. -/
def reviewCodeCall (_m : ServiceModule) (raw : String) : Except GeminiApiError Json :=
  reviewCodeInterp raw

/-! ## App-level data (`App.tsx`, current structured version) -/

structure StructuredReview where
  summary : String
  points : List ReviewPoint
deriving Repr, DecidableEq

/-- The typed result of `reviewCode` as consumed by the App layer. -/
structure CodeReview where
  review : StructuredReview
  suggestedCode : Option String
deriving Repr, DecidableEq

/-- The typed result of `detectLanguage` as consumed by the App layer. -/
structure LanguageDetectionResult where
  language : String
  confidence : String
deriving Repr, DecidableEq

structure HistoryItem where
  id : String
  code : String
  language : String
  review : StructuredReview
  suggestedCode : Option String
  timestamp : Nat
deriving Repr, DecidableEq

/-- The React state owned by the `App` component (`Option` = nullable). -/
structure AppState where
  code : String
  language : String
  review : Option StructuredReview
  suggestedCode : Option String
  isLoading : Bool
  loadingMessage : String
  error : Option String
  originalFileName : Option String
  explanations : List (Nat × String)
  explanationLoading : List (Nat × Bool)
  history : List HistoryItem
  activeHistoryId : Option String
deriving Repr, DecidableEq

/-- Which service calls a `handleReview` run performed: whether
`detectLanguage` was awaited, and the language tag passed to `reviewCode`
(`none` = `reviewCode` was never invoked). -/
structure CallTrace where
  detectCalled : Bool
  reviewCalledWith : Option String
deriving Repr, DecidableEq

def MAX_HISTORY_ITEMS : Nat := 50

/-- The `catch` branch of `handleReview`: every error reaching it in this
model is a `GeminiApiError`, whose message is surfaced as-is. -/
def catchReviewError (st : AppState) (e : GeminiApiError) : AppState :=
  { st with error := some e.message }

/-- The `finally` branch of `handleReview`. -/
def finallyReview (st : AppState) : AppState :=
  { st with isLoading := false, loadingMessage := "" }

/-- The tail of `handleReview` from `setLoadingMessage(\x27Reviewing code...\x27)`
on (lines 78-99 of the structured `App`): await `reviewCode`, store the
feedback, store the suggested code only when it is truthy and differs from
the input after trimming, and push the history item. -/
def runReviewPhase (now : Nat) (st : AppState) (lang : String)
    (reviewOutcome : Except GeminiApiError CodeReview) (detectCalled : Bool) :
    AppState × CallTrace :=
  let st1 := { st with loadingMessage := "Reviewing code..." }
  match reviewOutcome with
  | .error e => (finallyReview (catchReviewError st1 e), ⟨detectCalled, some lang⟩)
  | .ok r =>
    let st2 := { st1 with review := some r.review }
    let st3 :=
      match r.suggestedCode with
      | some s =>
        if !(s == "") && !(jsTrim s == jsTrim st2.code) then
          { st2 with suggestedCode := some s }
        else st2
      | none => st2
    let item : HistoryItem :=
      ⟨toString now, st3.code, lang, r.review, r.suggestedCode, now⟩
    let st4 := { st3 with
      history := (item :: st3.history.filter (fun it => !(it.code == st3.code))).take
        MAX_HISTORY_ITEMS,
      activeHistoryId := some item.id }
    (finallyReview st4, ⟨detectCalled, some lang⟩)

/-- `handleReview` (lines 46-113 of the structured `App`), with the two
awaited service calls supplied as outcomes and `Date.now()` as `now`.
Returns the resulting state and the trace of calls performed. -/
def handleReview (now : Nat) (st : AppState)
    (detectOutcome : Except GeminiApiError LanguageDetectionResult)
    (reviewOutcome : Except GeminiApiError CodeReview) : AppState × CallTrace :=
  if jsTrim st.code = "" then
    ({ st with error := some "Please enter some code to review." }, ⟨false, none⟩)
  else
    let st0 := { st with
      isLoading := true, loadingMessage := "", error := none, review := none,
      suggestedCode := none, explanations := [], explanationLoading := [],
      activeHistoryId := none }
    if st0.language = "auto" then
      let st1 := { st0 with loadingMessage := "Detecting language..." }
      match detectOutcome with
      | .error e => (finallyReview (catchReviewError st1 e), ⟨true, none⟩)
      | .ok d =>
        if d.confidence = "low" then
          let st2 := { st1 with
            error := some "Could not confidently detect the language. Please select it manually and try again.",
            isLoading := false, loadingMessage := "" }
          (finallyReview st2, ⟨true, none⟩)
        else
          let st2 := { st1 with language := d.language }
          runReviewPhase now st2 d.language reviewOutcome true
    else
      runReviewPhase now st0 st0.language reviewOutcome false

/-- `handleApplyChanges` (lines 115-121 of the structured `App`): a no-op
unless `suggestedCode` is truthy. -/
def handleApplyChanges (st : AppState) : AppState :=
  match st.suggestedCode with
  | some s =>
    if !(s == "") then
      { st with code := s, suggestedCode := none, activeHistoryId := none }
    else st
  | none => st

/-- The render condition of the "apply changes" affordance
(`ReviewOutput`, `suggestedCode && !isLoading && !error`). -/
def applyAffordanceVisible (st : AppState) : Bool :=
  jsTruthyStr st.suggestedCode && !st.isLoading && !(jsTruthyStr st.error)

/-! ## Helper lemmas -/

theorem applyAffordance_of_none {st : AppState} (h : st.suggestedCode = none) :
    applyAffordanceVisible st = false := by
  simp [applyAffordanceVisible, jsTruthyStr, h]

theorem handleApplyChanges_of_none {st : AppState} (h : st.suggestedCode = none) :
    handleApplyChanges st = st := by
  simp [handleApplyChanges, h]

/-! ## Claims -/

/-- **C2.** For every raw response text that is not syntactically valid JSON,
`detectLanguage` and `reviewCode` fail with a `GeminiApiError` whose kind is
`RESPONSE_PARSING`, and never with kind `NETWORK` or `UNKNOWN`. -/
theorem invalid_json_response_parsing :
    ∀ raw : String, Json.parse raw = none →
      detectLanguageInterp raw = .error detectParseError ∧
      reviewCodeInterp raw = .error reviewParseError ∧
      (∀ e, detectLanguageInterp raw = .error e →
        e.type = .RESPONSE_PARSING ∧ e.type ≠ .NETWORK ∧ e.type ≠ .UNKNOWN) ∧
      (∀ e, reviewCodeInterp raw = .error e →
        e.type = .RESPONSE_PARSING ∧ e.type ≠ .NETWORK ∧ e.type ≠ .UNKNOWN) := by
  intro raw h
  refine ⟨?_, ?_, ?_, ?_⟩ <;>
    simp_all [detectLanguageInterp, reviewCodeInterp, detectParseError, reviewParseError]

/-- Witness for C2: the raw text `"\x7b"` is not valid JSON and both
interpretations fail with the `RESPONSE_PARSING` errors. -/
theorem invalid_json_response_parsing_witness :
    detectLanguageInterp "\x7b" = .error detectParseError ∧
    reviewCodeInterp "\x7b" = .error reviewParseError :=
  ⟨(invalid_json_response_parsing "\x7b" rfl).1,
   (invalid_json_response_parsing "\x7b" rfl).2.1⟩

/-- **C6.** For every code input that is empty (or consists only of
whitespace), `handleReview` sets a local validation error message and
returns without calling `detectLanguage` or `reviewCode` — no network call
is made. -/
theorem empty_code_no_network_calls :
    ∀ (now : Nat) (st : AppState) (dOut : Except GeminiApiError LanguageDetectionResult)
      (rOut : Except GeminiApiError CodeReview),
      jsTrim st.code = "" →
      handleReview now st dOut rOut =
        ({ st with error := some "Please enter some code to review." },
          ⟨false, none⟩) := by
  intro now st dOut rOut h
  simp [handleReview, h]

/-- Witness for C6: with whitespace-only code the state change is exactly the
validation message and no service call is traced. -/
theorem empty_code_no_network_calls_witness :
    handleReview 0 ⟨"  \n ", "auto", none, none, false, "", none, none, [], [], [], none⟩
        (.ok ⟨"python", "high"⟩) (.ok ⟨⟨"s", []⟩, none⟩) =
      (⟨"  \n ", "auto", none, none, false, "",
          some "Please enter some code to review.", none, [], [], [], none⟩,
        ⟨false, none⟩) :=
  empty_code_no_network_calls 0 _ _ _ (by decide)

/-- **C9.** If the API key is absent from process configuration, the service
module fails at initialization (a thrown error before any client is
constructed), and no per-call operation performs its own missing-key check:
per-call behavior does not depend on the key at all. -/
theorem missing_api_key_fatal_at_init :
    (∀ env : Option String, env = none ∨ env = some "" →
      initGeminiService env = .error "API_KEY environment variable not set") ∧
    (∀ k : String, k ≠ "" → initGeminiService (some k) = .ok ⟨k⟩) ∧
    (∀ (m₁ m₂ : ServiceModule) (raw : String),
      detectLanguageCall m₁ raw = detectLanguageCall m₂ raw ∧
      reviewCodeCall m₁ raw = reviewCodeCall m₂ raw) := by
  refine ⟨?_, ?_, ?_⟩
  · rintro env (rfl | rfl) <;> simp [initGeminiService]
  · intro k hk
    simp [initGeminiService, hk]
  · intro m₁ m₂ raw
    exact ⟨rfl, rfl⟩

/-- Witness for C9: an unset key and an empty key both abort initialization;
a nonempty key initializes; calls through two differently-keyed modules
agree. -/
theorem missing_api_key_fatal_at_init_witness :
    initGeminiService none = .error "API_KEY environment variable not set" ∧
    initGeminiService (some "") = .error "API_KEY environment variable not set" ∧
    initGeminiService (some "k") = .ok ⟨"k"⟩ ∧
    detectLanguageCall ⟨"k1"⟩ "true" = detectLanguageCall ⟨"k2"⟩ "true" :=
  ⟨missing_api_key_fatal_at_init.1 none (Or.inl rfl),
   missing_api_key_fatal_at_init.1 (some "") (Or.inr rfl),
   missing_api_key_fatal_at_init.2.1 "k" (by decide),
   (missing_api_key_fatal_at_init.2.2 ⟨"k1"⟩ ⟨"k2"⟩ "true").1⟩

/-- **C5.** The detection prompt embeds only the first 2000 characters of the
code (the prompt is unchanged by truncating the code to that prefix), while
the `reviewCode` and `explainFurther` prompts embed the entire code string
verbatim (and hence determine it uniquely) regardless of its length. -/
theorem code_truncation_only_for_detection :
    (∀ code : String, detectPrompt code = detectPrompt (jsSubstringTo code 2000)) ∧
    (∀ code : String, detectPrompt code =
      detectPromptSeg0 ++ validLanguages ++ detectPromptSeg1
        ++ jsSubstringTo code 2000 ++ detectPromptSeg2) ∧
    (∀ code language : String, reviewPrompt code language =
      reviewPromptSeg0 ++ language ++ reviewPromptSeg1 ++ language
        ++ reviewPromptSeg2 ++ code ++ reviewPromptSeg3) ∧
    (∀ (code language : String) (point : ReviewPoint), explainPrompt code language point =
      explainPromptSeg0 ++ language ++ explainPromptSeg1 ++ language
        ++ explainPromptSeg2 ++ code ++ explainPromptSeg3 ++ point.topic
        ++ explainPromptSeg4 ++ point.feedback ++ explainPromptSeg5) ∧
    (∀ language c₁ c₂ : String,
      reviewPrompt c₁ language = reviewPrompt c₂ language → c₁ = c₂) ∧
    (∀ (language : String) (point : ReviewPoint) (c₁ c₂ : String),
      explainPrompt c₁ language point = explainPrompt c₂ language point → c₁ = c₂) := by
  refine ⟨?_, fun _ => rfl, fun _ _ => rfl, fun _ _ _ => rfl, ?_, ?_⟩
  · intro code
    simp [detectPrompt, jsSubstringTo, List.take_take]
  · intro language c₁ c₂ h
    have h2 : (reviewPrompt c₁ language).data = (reviewPrompt c₂ language).data :=
      congrArg String.data h
    simp only [reviewPrompt, String.data_append, List.append_assoc] at h2
    have h3 := List.append_cancel_left h2
    have h4 := List.append_cancel_left h3
    have h5 := List.append_cancel_left h4
    have h6 := List.append_cancel_left h5
    have h7 := List.append_cancel_left h6
    exact String.ext (List.append_cancel_right h7)
  · intro language point c₁ c₂ h
    have h2 : (explainPrompt c₁ language point).data
        = (explainPrompt c₂ language point).data :=
      congrArg String.data h
    simp only [explainPrompt, String.data_append, List.append_assoc] at h2
    have h3 := List.append_cancel_left h2
    have h4 := List.append_cancel_left h3
    have h5 := List.append_cancel_left h4
    have h6 := List.append_cancel_left h5
    have h7 := List.append_cancel_left h6
    exact String.ext (List.append_cancel_right h7)

/-- Witness for C5: a 2500-character code yields the same detection prompt as
its 2000-character prefix, and the review prompt determines the embedded code. -/
theorem code_truncation_only_for_detection_witness :
    detectPrompt (String.mk (List.replicate 2500 'a'))
      = detectPrompt (jsSubstringTo (String.mk (List.replicate 2500 'a')) 2000) ∧
    ("abc" : String) = "abc" :=
  ⟨code_truncation_only_for_detection.1 (String.mk (List.replicate 2500 'a')),
   code_truncation_only_for_detection.2.2.2.2.1 "python" "abc" "abc" rfl⟩

theorem strictEqJsonStr_iff (v : Option Json) (s : String) :
    strictEqJsonStr v s = true ↔ v = some (Json.str s) := by
  cases v with
  | none => simp [strictEqJsonStr]
  | some j => cases j <;> simp [strictEqJsonStr]

theorem Json.isNull_eq_false_of_ne {j : Json} (h : j ≠ Json.null) :
    j.isNull = false := by
  cases j <;> first | (exact absurd rfl h) | rfl

/-- The enum validation of `detectLanguage`, spelled out: the parsed value
carries a supported non-"auto" language tag and a three-valued confidence. -/
theorem detectResultValid_iff (j : Json) :
    detectResultValid j = true ↔
      ((∃ l, j.getField "language" = some (Json.str l) ∧
        l ∈ SUPPORTED_LANGUAGES.map LanguageOption.value ∧ l ≠ "auto") ∧
      (∃ c, j.getField "confidence" = some (Json.str c) ∧
        (c = "high" ∨ c = "medium" ∨ c = "low"))) := by
  unfold detectResultValid
  simp only [Bool.and_eq_true, Bool.or_eq_true, List.any_eq_true, strictEqJsonStr_iff,
    Bool.not_eq_true', beq_eq_false_iff_ne, ne_eq]
  constructor
  · rintro ⟨⟨l, hmem, hfield, hne⟩, hconf⟩
    refine ⟨⟨l.value, hfield, List.mem_map.mpr ⟨l, hmem, rfl⟩, hne⟩, ?_⟩
    rcases hconf with (h | h) | h
    · exact ⟨"high", h, Or.inl rfl⟩
    · exact ⟨"medium", h, Or.inr (Or.inl rfl)⟩
    · exact ⟨"low", h, Or.inr (Or.inr rfl)⟩
  · rintro ⟨⟨l, hfield, hmap, hne⟩, c, hcfield, hc⟩
    rcases List.mem_map.mp hmap with ⟨lopt, hmem, hval⟩
    refine ⟨⟨lopt, hmem, by rw [hval]; exact hfield, by rw [hval]; exact hne⟩, ?_⟩
    rcases hc with h | h | h <;> rw [h] at hcfield
    · exact Or.inl (Or.inl hcfield)
    · exact Or.inl (Or.inr hcfield)
    · exact Or.inr hcfield

theorem detectLanguageInterp_ok_valid (raw : String) (j : Json)
    (h : detectLanguageInterp raw = .ok j) : detectResultValid j = true := by
  rcases hp : Json.parse raw with _ | jj
  · simp [detectLanguageInterp, hp] at h
  · simp only [detectLanguageInterp, hp] at h
    by_cases hn : jj.isNull = true
    · rw [if_pos hn] at h
      exact absurd h (by simp)
    · rw [if_neg hn] at h
      by_cases hv : detectResultValid jj = true
      · rw [if_pos hv] at h
        injection h with h2
        rw [← h2]
        exact hv
      · rw [if_neg hv] at h
        injection h with h2
        rw [← h2]
        decide

/-- **C1.** A successful `detectLanguage` always returns a language tag from
the fixed supported set (excluding "auto") paired with a confidence in
{high, medium, low}; and whenever the (non-null) parsed response fails the
enum validation, the result is the fallback
`{ language: 'javascript', confidence: 'low' }` rather than a failure. -/
theorem detectLanguage_supported_set_and_fallback :
    (∀ raw j, detectLanguageInterp raw = .ok j →
      (∃ l, j.getField "language" = some (Json.str l) ∧
        l ∈ SUPPORTED_LANGUAGES.map LanguageOption.value ∧ l ≠ "auto") ∧
      (∃ c, j.getField "confidence" = some (Json.str c) ∧
        (c = "high" ∨ c = "medium" ∨ c = "low"))) ∧
    (∀ raw j, Json.parse raw = some j → j ≠ Json.null →
      detectResultValid j = false →
      detectLanguageInterp raw = .ok detectFallbackJson) := by
  constructor
  · intro raw j h
    exact (detectResultValid_iff j).mp (detectLanguageInterp_ok_valid raw j h)
  · intro raw j hp hne hv
    simp only [detectLanguageInterp, hp]
    rw [if_neg (by simp [Json.isNull_eq_false_of_ne hne]), if_neg (by simp [hv])]

/-- Witness for C1: a response with an unsupported tag is replaced by the
fallback, and a valid response is returned with its tag in the set. -/
theorem detectLanguage_supported_set_and_fallback_witness :
    detectLanguageInterp "\x7b\"language\": \"klingon\", \"confidence\": \"high\"\x7d"
      = .ok detectFallbackJson ∧
    (∃ l, (detectFallbackJson.getField "language") = some (Json.str l) ∧
      l ∈ SUPPORTED_LANGUAGES.map LanguageOption.value ∧ l ≠ "auto") :=
  ⟨detectLanguage_supported_set_and_fallback.2
      "\x7b\"language\": \"klingon\", \"confidence\": \"high\"\x7d"
      (Json.obj [("language", Json.str "klingon"), ("confidence", Json.str "high")])
      rfl (fun h => Json.noConfusion h) rfl,
   (detectLanguage_supported_set_and_fallback.1
      "\x7b\"language\": \"javascript\", \"confidence\": \"low\"\x7d"
      detectFallbackJson rfl).1⟩

/-- A JSON value conforming to the declared output schema of
`detectLanguage` (object type with string properties `language` and
`confidence`; the schema constrains types only — the enumerations appear in
descriptions, which are not constraints). -/
def conformsToDetectSchema (j : Json) : Prop :=
  ∃ l c, j = Json.obj [("language", Json.str l), ("confidence", Json.str c)]

/-- **C4 counterexample.** A well-formed response conforming to the declared
schema (both fields strings) whose tag is outside the enumerated set is not
round-tripped: `detectLanguage` substitutes the fallback object instead of
returning an object deep-equal to the parsed JSON. -/
theorem roundtrip_violated_on_schema_conforming_response :
    Json.parse "\x7b\"language\": \"klingon\", \"confidence\": \"high\"\x7d"
      = some (Json.obj [("language", Json.str "klingon"), ("confidence", Json.str "high")]) ∧
    conformsToDetectSchema
      (Json.obj [("language", Json.str "klingon"), ("confidence", Json.str "high")]) ∧
    detectLanguageInterp "\x7b\"language\": \"klingon\", \"confidence\": \"high\"\x7d"
      = .ok detectFallbackJson ∧
    detectFallbackJson
      ≠ Json.obj [("language", Json.str "klingon"), ("confidence", Json.str "high")] := by
  refine ⟨rfl, ⟨"klingon", "high", rfl⟩, rfl, ?_⟩
  simp [detectFallbackJson]

/-- **C4 amended.** For every raw response that parses as JSON, `reviewCode`
returns the parsed object unchanged (unconditional round-trip law), and
`detectLanguage` returns the parsed object unchanged whenever it passes the
enum validation (supported non-"auto" tag, three-valued confidence). -/
theorem roundtrip_reviewCode_and_validated_detect :
    ∀ raw j, Json.parse raw = some j →
      reviewCodeInterp raw = .ok j ∧
      (detectResultValid j = true → detectLanguageInterp raw = .ok j) := by
  intro raw j hp
  constructor
  · simp [reviewCodeInterp, hp]
  · intro hv
    have hn : j.isNull = false := by
      cases j
      case null => exact absurd hv (by decide)
      all_goals rfl
    simp only [detectLanguageInterp, hp]
    rw [if_neg (by simp [hn]), if_pos hv]

/-- Witness for C4 (amended): a schema-and-enum-valid response round-trips
through both interpreters. -/
theorem roundtrip_reviewCode_and_validated_detect_witness :
    reviewCodeInterp "\x7b\"language\": \"python\", \"confidence\": \"high\"\x7d"
      = .ok (Json.obj [("language", Json.str "python"), ("confidence", Json.str "high")]) ∧
    detectLanguageInterp "\x7b\"language\": \"python\", \"confidence\": \"high\"\x7d"
      = .ok (Json.obj [("language", Json.str "python"), ("confidence", Json.str "high")]) :=
  ⟨(roundtrip_reviewCode_and_validated_detect
      "\x7b\"language\": \"python\", \"confidence\": \"high\"\x7d"
      (Json.obj [("language", Json.str "python"), ("confidence", Json.str "high")]) rfl).1,
   (roundtrip_reviewCode_and_validated_detect
      "\x7b\"language\": \"python\", \"confidence\": \"high\"\x7d"
      (Json.obj [("language", Json.str "python"), ("confidence", Json.str "high")]) rfl).2 rfl⟩

/-- **C8.** For every supported language tag except "auto" and every code
string, the review instruction embeds the tag verbatim in both
target-language positions, and the literal "auto" never appears as a
target-language directive: the fixed template segments do not contain it,
and the interpolated slots hold the (non-"auto") tag. -/
theorem review_prompt_embeds_tag_never_auto :
    ∀ lang : String, lang ∈ SUPPORTED_LANGUAGES.map LanguageOption.value →
      lang ≠ "auto" →
      ∀ code : String,
        reviewPrompt code lang =
          reviewPromptSeg0 ++ lang ++ reviewPromptSeg1 ++ lang
            ++ reviewPromptSeg2 ++ code ++ reviewPromptSeg3 ∧
        strIncludes reviewPromptSeg0 "auto" = false ∧
        strIncludes reviewPromptSeg1 "auto" = false ∧
        strIncludes reviewPromptSeg2 "auto" = false ∧
        strIncludes reviewPromptSeg3 "auto" = false := by
  intro lang _ _ code
  exact ⟨rfl, rfl, rfl, rfl, rfl⟩

/-- Witness for C8 at the supported tag "python". -/
theorem review_prompt_embeds_tag_never_auto_witness :
    reviewPrompt "x" "python" =
      reviewPromptSeg0 ++ "python" ++ reviewPromptSeg1 ++ "python"
        ++ reviewPromptSeg2 ++ "x" ++ reviewPromptSeg3 ∧
    strIncludes reviewPromptSeg0 "auto" = false :=
  ⟨(review_prompt_embeds_tag_never_auto "python" (by decide) (by decide) "x").1,
   (review_prompt_embeds_tag_never_auto "python" (by decide) (by decide) "x").2.1⟩

/-- Characterization of the `suggestedCode` state after a non-empty-input
`handleReview` run: it is `none` unless `reviewCode` succeeded with a truthy
suggestion differing from the input after trimming, in which case it is that
suggestion. -/
theorem handleReview_suggestedCode_spec :
    ∀ (now : Nat) (st : AppState) (dOut : Except GeminiApiError LanguageDetectionResult)
      (rOut : Except GeminiApiError CodeReview),
      jsTrim st.code ≠ "" →
      ((handleReview now st dOut rOut).1.suggestedCode = none ∨
       (∃ r s, rOut = .ok r ∧ r.suggestedCode = some s ∧
         (handleReview now st dOut rOut).1.suggestedCode = some s ∧
         s ≠ "" ∧ jsTrim s ≠ jsTrim st.code)) := by
  intro now st dOut rOut hcode
  by_cases hlang : st.language = "auto"
  · cases dOut with
    | error e =>
      left
      simp [handleReview, hcode, hlang, finallyReview, catchReviewError]
    | ok d =>
      by_cases hconf : d.confidence = "low"
      · left
        simp [handleReview, hcode, hlang, hconf, finallyReview]
      · cases rOut with
        | error e =>
          left
          simp [handleReview, runReviewPhase, hcode, hlang, hconf, finallyReview,
            catchReviewError]
        | ok r =>
          rcases hs : r.suggestedCode with _ | s
          · left
            simp [handleReview, runReviewPhase, hcode, hlang, hconf, hs, finallyReview]
          · by_cases hemp : s = ""
            · left
              simp [handleReview, runReviewPhase, hcode, hlang, hconf, hs, hemp,
                finallyReview]
            · by_cases htrim : jsTrim s = jsTrim st.code
              · left
                simp [handleReview, runReviewPhase, hcode, hlang, hconf, hs, hemp,
                  htrim, finallyReview]
              · right
                exact ⟨r, s, rfl, hs,
                  by simp [handleReview, runReviewPhase, hcode, hlang, hconf, hs,
                    hemp, htrim, finallyReview], hemp, htrim⟩
  · cases rOut with
    | error e =>
      left
      simp [handleReview, runReviewPhase, hcode, hlang, finallyReview, catchReviewError]
    | ok r =>
      rcases hs : r.suggestedCode with _ | s
      · left
        simp [handleReview, runReviewPhase, hcode, hlang, hs, finallyReview]
      · by_cases hemp : s = ""
        · left
          simp [handleReview, runReviewPhase, hcode, hlang, hs, hemp, finallyReview]
        · by_cases htrim : jsTrim s = jsTrim st.code
          · left
            simp [handleReview, runReviewPhase, hcode, hlang, hs, hemp, htrim,
              finallyReview]
          · right
            exact ⟨r, s, rfl, hs,
              by simp [handleReview, runReviewPhase, hcode, hlang, hs, hemp, htrim,
                finallyReview], hemp, htrim⟩

/-- **C7.** For every `reviewCode` result whose `suggestedCode` is null, the
UI `suggestedCode` state remains null through the pipeline, the "apply
changes" affordance is not rendered, and `handleApplyChanges` is a no-op. -/
theorem null_suggestion_stays_null :
    ∀ (now : Nat) (st : AppState) (dOut : Except GeminiApiError LanguageDetectionResult)
      (rOut : Except GeminiApiError CodeReview) (r : CodeReview),
      rOut = .ok r → r.suggestedCode = none → jsTrim st.code ≠ "" →
      (handleReview now st dOut rOut).1.suggestedCode = none ∧
      applyAffordanceVisible (handleReview now st dOut rOut).1 = false ∧
      handleApplyChanges (handleReview now st dOut rOut).1 =
        (handleReview now st dOut rOut).1 := by
  intro now st dOut rOut r hr hs hcode
  have hmain : (handleReview now st dOut rOut).1.suggestedCode = none := by
    rcases handleReview_suggestedCode_spec now st dOut rOut hcode with h | ⟨r2, s, hr2, hs2, _, _, _⟩
    · exact h
    · rw [hr] at hr2
      injection hr2 with h2
      rw [← h2, hs] at hs2
      cases hs2
  exact ⟨hmain, applyAffordance_of_none hmain, handleApplyChanges_of_none hmain⟩

/-- Witness for C7: a successful review with a null suggestion leaves the
suggestion state null, with the affordance hidden and apply a no-op. -/
theorem null_suggestion_stays_null_witness :
    (handleReview 0 ⟨"x", "python", none, none, false, "", none, none, [], [], [], none⟩
        (.ok ⟨"python", "high"⟩) (.ok ⟨⟨"ok", []⟩, none⟩)).1.suggestedCode = none ∧
    applyAffordanceVisible
      (handleReview 0 ⟨"x", "python", none, none, false, "", none, none, [], [], [], none⟩
        (.ok ⟨"python", "high"⟩) (.ok ⟨⟨"ok", []⟩, none⟩)).1 = false :=
  ⟨(null_suggestion_stays_null 0
      ⟨"x", "python", none, none, false, "", none, none, [], [], [], none⟩
      (.ok ⟨"python", "high"⟩) (.ok ⟨⟨"ok", []⟩, none⟩) ⟨⟨"ok", []⟩, none⟩
      rfl rfl (by decide)).1,
   (null_suggestion_stays_null 0
      ⟨"x", "python", none, none, false, "", none, none, [], [], [], none⟩
      (.ok ⟨"python", "high"⟩) (.ok ⟨⟨"ok", []⟩, none⟩) ⟨⟨"ok", []⟩, none⟩
      rfl rfl (by decide)).2.1⟩

/-- **C10.** A non-null suggestion whose trimmed text equals the trimmed
input is treated exactly like null — the `suggestedCode` state stays null,
the affordance never appears, applying is a no-op — and conversely only
suggestions that differ from the input after trimming are ever surfaced. -/
theorem unchanged_suggestion_treated_as_null :
    ∀ (now : Nat) (st : AppState) (dOut : Except GeminiApiError LanguageDetectionResult)
      (rOut : Except GeminiApiError CodeReview),
      jsTrim st.code ≠ "" →
      (∀ r s, rOut = .ok r → r.suggestedCode = some s → jsTrim s = jsTrim st.code →
        (handleReview now st dOut rOut).1.suggestedCode = none ∧
        applyAffordanceVisible (handleReview now st dOut rOut).1 = false ∧
        handleApplyChanges (handleReview now st dOut rOut).1 =
          (handleReview now st dOut rOut).1) ∧
      (∀ t, (handleReview now st dOut rOut).1.suggestedCode = some t →
        jsTrim t ≠ jsTrim st.code) := by
  intro now st dOut rOut hcode
  constructor
  · intro r s hr hs htrim
    have hmain : (handleReview now st dOut rOut).1.suggestedCode = none := by
      rcases handleReview_suggestedCode_spec now st dOut rOut hcode with h | ⟨r2, s2, hr2, hs2, _, _, htr2⟩
      · exact h
      · rw [hr] at hr2
        injection hr2 with h2
        rw [← h2, hs] at hs2
        injection hs2 with h3
        rw [← h3] at htr2
        exact absurd htrim htr2
    exact ⟨hmain, applyAffordance_of_none hmain, handleApplyChanges_of_none hmain⟩
  · intro t ht
    rcases handleReview_suggestedCode_spec now st dOut rOut hcode with h | ⟨r2, s2, _, _, hset, _, htr2⟩
    · rw [h] at ht
      cases ht
    · rw [hset] at ht
      injection ht with h3
      rw [h3] at htr2
      exact htr2

/-- Witness for C10: a suggestion equal to the input up to surrounding
whitespace is not surfaced. -/
theorem unchanged_suggestion_treated_as_null_witness :
    (handleReview 0 ⟨"x", "python", none, none, false, "", none, none, [], [], [], none⟩
        (.ok ⟨"python", "high"⟩)
        (.ok ⟨⟨"ok", []⟩, some "  x "⟩)).1.suggestedCode = none ∧
    applyAffordanceVisible
      (handleReview 0 ⟨"x", "python", none, none, false, "", none, none, [], [], [], none⟩
        (.ok ⟨"python", "high"⟩) (.ok ⟨⟨"ok", []⟩, some "  x "⟩)).1 = false :=
  ⟨((unchanged_suggestion_treated_as_null 0
      ⟨"x", "python", none, none, false, "", none, none, [], [], [], none⟩
      (.ok ⟨"python", "high"⟩) (.ok ⟨⟨"ok", []⟩, some "  x "⟩) (by decide)).1
      ⟨⟨"ok", []⟩, some "  x "⟩ "  x " rfl rfl (by decide)).1,
   ((unchanged_suggestion_treated_as_null 0
      ⟨"x", "python", none, none, false, "", none, none, [], [], [], none⟩
      (.ok ⟨"python", "high"⟩) (.ok ⟨⟨"ok", []⟩, some "  x "⟩) (by decide)).1
      ⟨⟨"ok", []⟩, some "  x "⟩ "  x " rfl rfl (by decide)).2.1⟩

/-- **C3.** When the selected language is "auto" (and the input is
non-empty), `handleReview` first calls `detectLanguage`; if the detection
result has confidence "low" the whole operation aborts with the user-facing
message asking for manual selection and `reviewCode` is never invoked (no
partial review); otherwise `reviewCode` is invoked with exactly the detected
language tag. -/
theorem auto_flow_low_confidence_aborts :
    ∀ (now : Nat) (st : AppState) (dOut : Except GeminiApiError LanguageDetectionResult)
      (rOut : Except GeminiApiError CodeReview),
      st.language = "auto" → jsTrim st.code ≠ "" →
      (handleReview now st dOut rOut).2.detectCalled = true ∧
      (∀ d, dOut = .ok d → d.confidence = "low" →
        (handleReview now st dOut rOut).2.reviewCalledWith = none ∧
        (handleReview now st dOut rOut).1.error =
          some "Could not confidently detect the language. Please select it manually and try again." ∧
        (handleReview now st dOut rOut).1.review = none ∧
        (handleReview now st dOut rOut).1.suggestedCode = none) ∧
      (∀ d, dOut = .ok d → d.confidence ≠ "low" →
        (handleReview now st dOut rOut).2.reviewCalledWith = some d.language) := by
  intro now st dOut rOut hlang hcode
  refine ⟨?_, ?_, ?_⟩
  · cases dOut with
    | error e => simp [handleReview, hcode, hlang, finallyReview, catchReviewError]
    | ok d =>
      by_cases hconf : d.confidence = "low"
      · simp [handleReview, hcode, hlang, hconf, finallyReview]
      · cases rOut <;>
          simp [handleReview, runReviewPhase, hcode, hlang, hconf, finallyReview,
            catchReviewError]
  · intro d hd hconf
    subst hd
    refine ⟨?_, ?_, ?_, ?_⟩ <;>
      simp [handleReview, hcode, hlang, hconf, finallyReview]
  · intro d hd hconf
    subst hd
    cases rOut <;>
      simp [handleReview, runReviewPhase, hcode, hlang, hconf, finallyReview,
        catchReviewError]

/-- Witness for C3: a low-confidence detection aborts with the manual-selection
message and no review call; a high-confidence one reviews with the detected
tag. -/
theorem auto_flow_low_confidence_aborts_witness :
    (handleReview 0 ⟨"x", "auto", none, none, false, "", none, none, [], [], [], none⟩
        (.ok ⟨"python", "low"⟩) (.ok ⟨⟨"ok", []⟩, none⟩)).2.reviewCalledWith = none ∧
    (handleReview 0 ⟨"x", "auto", none, none, false, "", none, none, [], [], [], none⟩
        (.ok ⟨"python", "low"⟩) (.ok ⟨⟨"ok", []⟩, none⟩)).1.error =
      some "Could not confidently detect the language. Please select it manually and try again." ∧
    (handleReview 0 ⟨"x", "auto", none, none, false, "", none, none, [], [], [], none⟩
        (.ok ⟨"python", "high"⟩) (.ok ⟨⟨"ok", []⟩, none⟩)).2.reviewCalledWith =
      some "python" :=
  ⟨((auto_flow_low_confidence_aborts 0
      ⟨"x", "auto", none, none, false, "", none, none, [], [], [], none⟩
      (.ok ⟨"python", "low"⟩) (.ok ⟨⟨"ok", []⟩, none⟩) rfl (by decide)).2.1
      ⟨"python", "low"⟩ rfl rfl).1,
   ((auto_flow_low_confidence_aborts 0
      ⟨"x", "auto", none, none, false, "", none, none, [], [], [], none⟩
      (.ok ⟨"python", "low"⟩) (.ok ⟨⟨"ok", []⟩, none⟩) rfl (by decide)).2.1
      ⟨"python", "low"⟩ rfl rfl).2.1,
   (auto_flow_low_confidence_aborts 0
      ⟨"x", "auto", none, none, false, "", none, none, [], [], [], none⟩
      (.ok ⟨"python", "high"⟩) (.ok ⟨⟨"ok", []⟩, none⟩) rfl (by decide)).2.2
      ⟨"python", "high"⟩ rfl (by decide)⟩

end CodeReviewer
